import Mathlib

/-!
Verification of the TaxoTagger web app's deterministic logic (src/app.py):
FASTA input validation (`validate_input`) and result-table assembly
(the `results_by_seq` loop), plus the count-mismatch diagnostic, the
CSV export round-trip, and the temporary-file lifecycle of
`process_fasta_and_run`.

Strings are manipulated through their character lists so that every
definition is structurally recursive and kernel-evaluable.
-/

namespace TaxoApp

/-! ## Character-list splitting and joining (used by the FASTA parser and the CSV layer) -/

/-- Split a character list at every occurrence of `sep` (the separator is dropped). -/
def splitSep (sep : Char) : List Char → List (List Char)
  | [] => [[]]
  | c :: cs =>
    if c = sep then [] :: splitSep sep cs
    else
      match splitSep sep cs with
      | [] => [[c]]
      | g :: gs => (c :: g) :: gs

/-- Join character lists with the separator `sep` between consecutive pieces. -/
def joinSep (sep : Char) : List (List Char) → List Char
  | [] => []
  | [x] => x
  | x :: y :: ys => x ++ sep :: joinSep sep (y :: ys)

/-! ## Input validator (src/app.py, `validate_input`, lines 42-87) -/

/-- The lines of the raw FASTA text. -/
def splitLines (s : String) : List String :=
  (splitSep (Char.ofNat 10) s.data).map String.mk

/-- Whether a line is a FASTA header line (starts with the delimiter character). -/
def startsWithGt (s : String) : Bool :=
  match s.data with
  | c :: _ => c = '>'
  | [] => false

/-- Group the lines into records: a header line opens a record, subsequent
non-header lines are concatenated into its sequence content. -/
def parseRecordsAux : List String → List (String × String) → List (String × String)
  | [], acc => acc.reverse
  | line :: rest, acc =>
    if startsWithGt line then parseRecordsAux rest ((line, "") :: acc)
    else
      match acc with
      | [] => parseRecordsAux rest []
      | (h, s) :: acc2 => parseRecordsAux rest ((h, s ++ line) :: acc2)

/-- All FASTA records of the raw text, in encounter order. -/
def parseRecords (raw : String) : List (String × String) := parseRecordsAux (splitLines raw) []

/-- The error message produced when two headers are identical. -/
def parseFastaDupMsg : String := "Duplicate headers found in the FASTA content."

/-- Modelled from the spec: `taxotagger.utils.parse_fasta` (external library, not in
this repository) parses raw text into a header-to-sequence mapping and raises a
`ValueError` when any two headers are identical. -/
def parse_fasta (raw : String) : Except String (List (String × String)) :=
  let recs := parseRecords raw
  if ((recs.map Prod.fst).Nodup) then .ok recs else .error parseFastaDupMsg

/-- Strip the leading FASTA delimiter from a header. -/
def stripDelim (h : String) : String :=
  match h.data with
  | c :: cs => if c = '>' then String.mk cs else h
  | [] => h

/-- The first whitespace-delimited token of a string (empty when there is none). -/
def firstToken (s : String) : String :=
  String.mk ((s.data.dropWhile Char.isWhitespace).takeWhile fun c => !c.isWhitespace)

/-- Modelled from the spec: `taxotagger.utils.parse_unite_fasta_header(header)[0]`
(external library, not in this repository) — the sequence identifier is the first
whitespace-delimited token of the header after stripping the leading delimiter. -/
def extractId (header : String) : String := firstToken (stripDelim header)

/-- The validation failures of `validate_input`; each `st.error`/`st.stop` pair
in the source is one constructor. -/
inductive ValidationError where
  | parseError (msg : String)
  | duplicateId (seq_id : String)
  | malformedHeader
  | tooManyRecords
  deriving DecidableEq, Repr

/-- The sentence appended to the parse error, instructing the caller to make
headers unique (src/app.py line 48). -/
def dupInstruction : String := "\n\nPlease ensure all FASTA headers are unique."

/-- The seq-id extraction loop of `validate_input` (src/app.py lines 52-62):
walk the headers, accumulate unseen identifiers, fail on the first repeat. -/
def extractIds : List String → List String → Except String (List String)
  | [], acc => .ok acc.reverse
  | h :: rest, acc =>
    let sid := extractId h
    if sid ∈ acc then .error sid else extractIds rest (sid :: acc)

/-- The header-validity test of `validate_input` (src/app.py line 67):
`len(header) > 1`, i.e. the delimiter plus at least one further character. -/
def isValidHeader (h : String) : Bool := decide (1 < h.length)

/-- `validate_input` (src/app.py lines 42-87): parse, check identifier
uniqueness, check header validity, enforce the 100-record cap; on success
return the ordered identifiers together with the reported accepted count. -/
def validate_input (raw : String) : Except ValidationError (List String × Nat) :=
  match parse_fasta raw with
  | .error msg => .error (.parseError (msg ++ dupInstruction))
  | .ok recs =>
    match extractIds (recs.map Prod.fst) [] with
    | .error sid => .error (.duplicateId sid)
    | .ok seq_ids =>
      let num_seqs := recs.length
      let num_valid := ((recs.map Prod.fst).filter isValidHeader).length
      if num_valid ≠ num_seqs then .error .malformedHeader
      else if 100 < num_seqs then .error .tooManyRecords
      else .ok (seq_ids, num_seqs)

/-! ## Validator lemmas -/

/-- Complete description of the identifier-extraction loop: with a duplicate-free
accumulator it either returns all identifiers in order (when they are all fresh),
or stops at an identifier that occurs at least twice overall. -/
theorem extractIds_spec (hs : List String) :
    ∀ acc : List String, acc.Nodup →
      (extractIds hs acc = .ok (acc.reverse ++ hs.map extractId)
          ∧ (acc ++ hs.map extractId).Nodup)
      ∨ (∃ s, extractIds hs acc = .error s
          ∧ 2 ≤ (acc ++ hs.map extractId).count s) := by
  induction hs with
  | nil =>
    intro acc hacc
    left
    exact ⟨by simp [extractIds], by simpa using hacc⟩
  | cons h rest ih =>
    intro acc hacc
    by_cases hmem : extractId h ∈ acc
    · right
      refine ⟨extractId h, by simp [extractIds, hmem], ?_⟩
      have h1 : 0 < acc.count (extractId h) := List.count_pos_iff.mpr hmem
      rw [List.map_cons, List.count_append, List.count_cons_self]
      omega
    · have hacc2 : (extractId h :: acc).Nodup := List.nodup_cons.mpr ⟨hmem, hacc⟩
      have hstep : extractIds (h :: rest) acc = extractIds rest (extractId h :: acc) := by
        simp [extractIds, hmem]
      have hperm : ((extractId h :: acc) ++ rest.map extractId).Perm
          (acc ++ extractId h :: rest.map extractId) := by
        rw [List.cons_append]
        exact List.perm_middle.symm
      rcases ih (extractId h :: acc) hacc2 with ⟨hok, hnd⟩ | ⟨s, herr, hcnt⟩
      · left
        refine ⟨?_, ?_⟩
        · rw [hstep, hok]
          simp
        · rw [List.map_cons]
          exact hperm.nodup_iff.mp hnd
      · right
        refine ⟨s, by rw [hstep, herr], ?_⟩
        rw [List.map_cons, ← hperm.count_eq]
        exact hcnt

/-- Under the uniqueness and header-validity preconditions, `validate_input`
reduces to the record-count check. -/
theorem validate_reduces (raw : String)
    (hnodup : ((parseRecords raw).map Prod.fst).Nodup)
    (hids : (((parseRecords raw).map Prod.fst).map extractId).Nodup)
    (hvalid : ∀ h ∈ (parseRecords raw).map Prod.fst, isValidHeader h = true) :
    validate_input raw =
      if 100 < (parseRecords raw).length then .error .tooManyRecords
      else .ok ((((parseRecords raw).map Prod.fst).map extractId),
        (parseRecords raw).length) := by
  have hparse : parse_fasta raw = .ok (parseRecords raw) := by
    rw [parse_fasta, if_pos hnodup]
  have hextract : extractIds ((parseRecords raw).map Prod.fst) []
      = .ok (((parseRecords raw).map Prod.fst).map extractId) := by
    rcases extractIds_spec ((parseRecords raw).map Prod.fst) [] List.nodup_nil with
      ⟨hok, _⟩ | ⟨s, _, hcnt⟩
    · simpa using hok
    · exfalso
      have := List.nodup_iff_count_le_one.mp hids s
      simp only [List.nil_append] at hcnt
      omega
  have hfilter : ((parseRecords raw).map Prod.fst).filter isValidHeader
      = (parseRecords raw).map Prod.fst := List.filter_eq_self.mpr hvalid
  rw [validate_input, hparse]
  simp only [hextract, hfilter, List.length_map]
  rw [if_neg (by omega)]

/-- C1: a FASTA input with well-formed records, unique headers, unique extracted
identifiers, and at most 100 records validates successfully, producing exactly
the extracted identifiers in header-encounter order (with the accepted count
reported). -/
theorem validate_success (raw : String)
    (hnodup : ((parseRecords raw).map Prod.fst).Nodup)
    (hids : (((parseRecords raw).map Prod.fst).map extractId).Nodup)
    (hvalid : ∀ h ∈ (parseRecords raw).map Prod.fst, isValidHeader h = true)
    (hcap : (parseRecords raw).length ≤ 100) :
    validate_input raw =
      .ok ((((parseRecords raw).map Prod.fst).map extractId),
        (parseRecords raw).length) := by
  rw [validate_reduces raw hnodup hids hvalid, if_neg (by omega)]

/-- Witness for C1 on the spec's own example input. -/
theorem validate_success_witness :
    validate_input ">a\nATGC\n>b\nCGTA" = .ok (["a", "b"], 2) := by
  have h := validate_success ">a\nATGC\n>b\nCGTA"
    (by decide) (by decide) (by decide) (by decide)
  exact h.trans (by rfl)

/-- C8: with unique headers, unique identifiers, and well-formed headers,
validation fails with the too-many-records error exactly when the parsed record
count exceeds 100; at 100 or fewer it succeeds and reports the accepted count. -/
theorem validate_cap (raw : String)
    (hnodup : ((parseRecords raw).map Prod.fst).Nodup)
    (hids : (((parseRecords raw).map Prod.fst).map extractId).Nodup)
    (hvalid : ∀ h ∈ (parseRecords raw).map Prod.fst, isValidHeader h = true) :
    (validate_input raw = .error .tooManyRecords
        ↔ 100 < (parseRecords raw).length)
    ∧ ((parseRecords raw).length ≤ 100 →
        validate_input raw =
          .ok ((((parseRecords raw).map Prod.fst).map extractId),
            (parseRecords raw).length)) := by
  have hred := validate_reduces raw hnodup hids hvalid
  refine ⟨⟨?_, ?_⟩, ?_⟩
  · intro herr
    by_contra hle
    rw [hred, if_neg hle] at herr
    exact Except.noConfusion herr
  · intro hgt
    rw [hred, if_pos hgt]
  · intro hle
    rw [hred, if_neg (by omega)]

/-- An input of exactly 101 well-formed, uniquely-headed, uniquely-identified
records. -/
def overHundredInput : String :=
  String.join ((List.range 101).map fun k => ">s" ++ toString k ++ "\nACGT\n")

set_option maxRecDepth 100000

/-- Witness for C8: 101 records trip the cap. -/
theorem validate_cap_witness :
    100 < (parseRecords overHundredInput).length
    ∧ validate_input overHundredInput = .error .tooManyRecords := by
  have h := validate_cap overHundredInput (by decide) (by decide) (by decide)
  exact ⟨by decide, h.1.mpr (by decide)⟩

/-- C3: a header passes the validity check exactly when something remains after
stripping the delimiter; and whenever the valid-header count differs from the
record count (with the earlier checks passed), validation fails with the
malformed-header error, never reaching the record-count check. -/
theorem header_validity_check :
    (∀ h : String, startsWithGt h = true →
      (isValidHeader h = true ↔ stripDelim h ≠ ""))
    ∧ (∀ raw : String, ∀ recs : List (String × String), ∀ ids : List String,
        parse_fasta raw = .ok recs →
        extractIds (recs.map Prod.fst) [] = .ok ids →
        ((recs.map Prod.fst).filter isValidHeader).length ≠ recs.length →
        validate_input raw = .error .malformedHeader) := by
  constructor
  · intro h hgt
    obtain ⟨l⟩ := h
    cases l with
    | nil => simp [startsWithGt] at hgt
    | cons c cs =>
      have hc : c = '>' := by simpa [startsWithGt] using hgt
      subst hc
      simp only [isValidHeader, stripDelim, if_pos rfl, decide_eq_true_eq]
      constructor
      · intro hlen hempty
        have hcs : cs = [] := congrArg String.data hempty
        subst hcs
        simp [String.length] at hlen
      · intro hne
        have hcs : cs ≠ [] := fun hcs => hne (by rw [hcs]; rfl)
        have : 0 < cs.length := List.length_pos.mpr hcs
        simp [String.length]
        omega
  · intro raw recs ids hparse hextract hcount
    rw [validate_input, hparse]
    simp only [hextract]
    rw [if_pos hcount]

/-- Witness for C3: the header ">a" is valid, the bare header ">" is not, and
an input containing a bare ">" header fails with the malformed-header error. -/
theorem header_validity_check_witness :
    (isValidHeader ">a" = true ↔ stripDelim ">a" ≠ "")
    ∧ validate_input ">\nAT\n>x\nCG" = .error .malformedHeader := by
  refine ⟨header_validity_check.1 ">a" (by decide), ?_⟩
  exact header_validity_check.2 ">\nAT\n>x\nCG" (parseRecords ">\nAT\n>x\nCG")
    [extractId ">", extractId ">x"] (by rfl) (by rfl) (by decide)

/-- C6: when two headers (distinct or not, here distinct because parsing
succeeded) extract to the same identifier, validation fails with a
duplicate-identifier error naming an identifier that occurs at least twice. -/
theorem validate_duplicate_id (raw : String)
    (hnodup : ((parseRecords raw).map Prod.fst).Nodup)
    (i j : Fin ((((parseRecords raw).map Prod.fst).map extractId).length))
    (hij : i ≠ j)
    (heq : (((parseRecords raw).map Prod.fst).map extractId).get i
        = (((parseRecords raw).map Prod.fst).map extractId).get j) :
    ∃ s, validate_input raw = .error (.duplicateId s)
      ∧ 2 ≤ (((parseRecords raw).map Prod.fst).map extractId).count s := by
  have hnd : ¬ (((parseRecords raw).map Prod.fst).map extractId).Nodup :=
    fun hnd => hij (hnd.get_inj_iff.mp heq)
  rcases extractIds_spec (((parseRecords raw).map Prod.fst)) [] List.nodup_nil with
    ⟨_, hnd2⟩ | ⟨s, herr, hcnt⟩
  · exact absurd (by simpa using hnd2) hnd
  · refine ⟨s, ?_, by simpa using hcnt⟩
    rw [validate_input,
      show parse_fasta raw = .ok (parseRecords raw) from by rw [parse_fasta, if_pos hnodup]]
    simp only [herr]

/-- Witness for C6: two distinct headers sharing the leading token "a". -/
theorem validate_duplicate_id_witness :
    ∃ s, validate_input ">a x\nAT\n>a y\nCG" = .error (.duplicateId s)
      ∧ 2 ≤ ((((parseRecords ">a x\nAT\n>a y\nCG")).map Prod.fst).map extractId).count s := by
  exact validate_duplicate_id ">a x\nAT\n>a y\nCG" (by decide)
    ⟨0, by decide⟩ ⟨1, by decide⟩ (by decide) (by decide)

/-- C7: an input with two identical headers fails with the duplicate-header
parse error, whatever the attached sequence content, and the surfaced message
ends with the instruction to make all headers unique. -/
theorem validate_duplicate_header (raw : String)
    (i j : Fin (((parseRecords raw).map Prod.fst).length)) (hij : i ≠ j)
    (heq : ((parseRecords raw).map Prod.fst).get i
        = ((parseRecords raw).map Prod.fst).get j) :
    validate_input raw = .error (.parseError (parseFastaDupMsg ++ dupInstruction))
    ∧ ("Please ensure all FASTA headers are unique.").data.isSuffixOf
        (parseFastaDupMsg ++ dupInstruction).data = true := by
  have hnd : ¬ ((parseRecords raw).map Prod.fst).Nodup :=
    fun hnd => hij (hnd.get_inj_iff.mp heq)
  refine ⟨?_, by decide⟩
  rw [validate_input,
    show parse_fasta raw = .error parseFastaDupMsg from by rw [parse_fasta, if_neg hnd]]

/-- Witness for C7: two identical headers with different sequence content. -/
theorem validate_duplicate_header_witness :
    validate_input ">a\nAT\n>a\nCG"
        = .error (.parseError (parseFastaDupMsg ++ dupInstruction))
    ∧ ("Please ensure all FASTA headers are unique.").data.isSuffixOf
        (parseFastaDupMsg ++ dupInstruction).data = true := by
  exact validate_duplicate_header ">a\nAT\n>a\nCG"
    ⟨0, by decide⟩ ⟨1, by decide⟩ (by decide) (by decide)

/-! ## Result assembler (src/app.py, lines 184-228) -/

/-- Modelled from the spec: `taxotagger.defaults.TAXONOMY_LEVELS` (external
library, not in this repository) — the ranks of the biological classification
hierarchy used as grouping keys for search results. -/
def TAXONOMY_LEVELS : List String :=
  ["phylum", "class", "order", "family", "genus", "species"]

/-- Python `str.capitalize`: first character upper-cased, the rest lower-cased. -/
def pyCapitalize (s : String) : String :=
  match s.data with
  | [] => ""
  | c :: cs => String.mk (c.toUpper :: cs.map Char.toLower)

/-- One candidate result returned by the engine for a (sequence, level, rank)
triple: matched-entity identifier, similarity score, and the entity attribute
mapping from taxonomy level to label. -/
structure Match where
  id : String
  distance : Rat
  entity : List (String × String)
  deriving DecidableEq, Repr

/-- The engine's result shape: per taxonomy level, a list (indexed by input
sequence position) of ranked match lists. -/
abbrev SearchResults : Type := String → List (List Match)

/-- A value stored in one cell of a result record: a string label, the integer
rank, or a similarity score. -/
inductive CellValue where
  | str (s : String)
  | nat (n : Nat)
  | num (q : Rat)
  deriving DecidableEq, Repr

/-- One flattened result record, as the insertion-ordered key/value pairs of
the Python dict built by the assembly loop. -/
abbrev ResultRecord : Type := List (String × CellValue)

/-- The per-level body of the assembly loop (src/app.py lines 211-226): read
`results[level][i][j]`; on success record label/hit/similarity (or empty
placeholders when the entity value for the level is empty); when the index is
out of range record only the sentinel label. -/
def levelChunk (results : SearchResults) (i j : Nat) (level : String) : ResultRecord :=
  let cap := pyCapitalize level
  match (results level).get? i >>= fun row => row.get? j with
  | some m =>
    let value := (List.lookup level m.entity).getD ""
    if value ≠ "" then
      [(cap, .str value), (cap ++ "_Hit", .str m.id), (cap ++ "_Similarity", .num m.distance)]
    else
      [(cap, .str ""), (cap ++ "_Hit", .str ""), (cap ++ "_Similarity", .str "")]
  | none => [(cap, .str "No match found")]

/-- One result record for sequence position `i` (with identifier `seq_id`) at
0-based rank `j`: the Sequence_ID and Rank cells followed by each level's
contribution (src/app.py lines 208-226). -/
def buildRecord (results : SearchResults) (levels : List String)
    (seq_id : String) (i j : Nat) : ResultRecord :=
  ("Sequence_ID", .str seq_id) :: ("Rank", .nat (j + 1))
    :: levels.flatMap (levelChunk results i j)

/-- The whole assembly loop (src/app.py lines 204-227): for every sequence, one
record per rank in `[0, top_n)`, in rank order. -/
def assemble (results : SearchResults) (levels : List String)
    (seq_ids : List String) (top_n : Nat) : List (String × List ResultRecord) :=
  (List.range seq_ids.length).map fun i =>
    (seq_ids.getD i "",
      (List.range top_n).map fun j =>
        buildRecord results levels (seq_ids.getD i "") i j)

/-! ## Lookup lemmas for assembled records -/

/-- The three cell keys a taxonomy level can contribute to a record. -/
def chunkKeys (level : String) : List String :=
  [pyCapitalize level, pyCapitalize level ++ "_Hit", pyCapitalize level ++ "_Similarity"]

theorem lookup_append_of_none {k : String} {l1 l2 : List (String × CellValue)}
    (h : List.lookup k l1 = none) :
    List.lookup k (l1 ++ l2) = List.lookup k l2 := by
  induction l1 with
  | nil => simp
  | cons a t ih =>
    obtain ⟨ka, va⟩ := a
    cases hk : (k == ka) with
    | true => simp [List.lookup_cons, hk] at h
    | false =>
      simp only [List.cons_append, List.lookup_cons, hk] at h ⊢
      exact ih h

theorem lookup_append_of_some {k : String} {v : CellValue} {l1 l2 : List (String × CellValue)}
    (h : List.lookup k l1 = some v) :
    List.lookup k (l1 ++ l2) = some v := by
  induction l1 with
  | nil => simp at h
  | cons a t ih =>
    obtain ⟨ka, va⟩ := a
    cases hk : (k == ka) with
    | true => simp only [List.cons_append, List.lookup_cons, hk] at h ⊢; exact h
    | false =>
      simp only [List.cons_append, List.lookup_cons, hk] at h ⊢
      exact ih h

/-- A level's chunk binds no key outside its three `chunkKeys`. -/
theorem lookup_levelChunk_none {k : String} (results : SearchResults) (i j : Nat)
    (level : String) (hk : k ∉ chunkKeys level) :
    List.lookup k (levelChunk results i j level) = none := by
  have h1 : k ≠ pyCapitalize level := by
    intro h; exact hk (by rw [h]; exact List.mem_cons_self _ _)
  have h2 : k ≠ pyCapitalize level ++ "_Hit" := by
    intro h; exact hk (by rw [h]; simp [chunkKeys])
  have h3 : k ≠ pyCapitalize level ++ "_Similarity" := by
    intro h; exact hk (by rw [h]; simp [chunkKeys])
  have b1 : (k == pyCapitalize level) = false := beq_eq_false_iff_ne.mpr h1
  have b2 : (k == pyCapitalize level ++ "_Hit") = false := beq_eq_false_iff_ne.mpr h2
  have b3 : (k == pyCapitalize level ++ "_Similarity") = false := beq_eq_false_iff_ne.mpr h3
  rw [levelChunk]
  cases hslot : (results level).get? i >>= fun row => row.get? j with
  | none => simp [List.lookup_cons, b1]
  | some m =>
    simp only []
    split
    · simp [List.lookup_cons, b1, b2, b3]
    · simp [List.lookup_cons, b1, b2, b3]

/-- A key bound in no level's chunk is bound nowhere in the flattened chunks. -/
theorem lookup_flatMap_none {k : String} (results : SearchResults) (i j : Nat)
    (ls : List String)
    (h : ∀ l ∈ ls, List.lookup k (levelChunk results i j l) = none) :
    List.lookup k (ls.flatMap (levelChunk results i j)) = none := by
  induction ls with
  | nil => rfl
  | cons a t ih =>
    rw [List.flatMap_cons, lookup_append_of_none (h a (List.mem_cons_self a t))]
    exact ih fun l hl => h l (List.mem_cons_of_mem a hl)

/-- No key of the target level's chunk occurs in another level's chunk. -/
theorem taxonomy_keys_disjoint :
    ∀ l ∈ TAXONOMY_LEVELS, ∀ l2 ∈ TAXONOMY_LEVELS, l ≠ l2 →
      ∀ k ∈ chunkKeys l, k ∉ chunkKeys l2 := by decide

theorem taxonomy_chunkKeys_nodup : ∀ l ∈ TAXONOMY_LEVELS, (chunkKeys l).Nodup := by decide

theorem taxonomy_base_keys : ∀ l ∈ TAXONOMY_LEVELS,
    ∀ k ∈ chunkKeys l, k ≠ "Sequence_ID" ∧ k ≠ "Rank" := by decide

theorem taxonomy_nodup : TAXONOMY_LEVELS.Nodup := by decide

/-- Looking up any of the target level's keys in a full record reduces to
looking it up in that level's own chunk. -/
theorem lookup_buildRecord (results : SearchResults) (sid : String) (i j : Nat)
    {level k : String} (hlev : level ∈ TAXONOMY_LEVELS) (hk : k ∈ chunkKeys level) :
    List.lookup k (buildRecord results TAXONOMY_LEVELS sid i j)
      = List.lookup k (levelChunk results i j level) := by
  obtain ⟨hk1, hk2⟩ := taxonomy_base_keys level hlev k hk
  obtain ⟨as, bs, htax⟩ := List.append_of_mem hlev
  have hnd := taxonomy_nodup
  rw [htax] at hnd
  rcases List.nodup_append.mp hnd with ⟨-, hndcons, hdisj⟩
  have hlevas : level ∉ as := fun hmem => hdisj hmem (List.mem_cons_self level bs)
  have hlevbs : level ∉ bs := (List.nodup_cons.mp hndcons).1
  have hother : ∀ l2, l2 ∈ as ∨ l2 ∈ bs →
      List.lookup k (levelChunk results i j l2) = none := by
    intro l2 hl2
    have hl2mem : l2 ∈ TAXONOMY_LEVELS := by
      rw [htax]
      rcases hl2 with h | h
      · exact List.mem_append_left _ h
      · exact List.mem_append_right _ (List.mem_cons_of_mem _ h)
    have hne : level ≠ l2 := by
      intro hcontra
      subst hcontra
      rcases hl2 with h | h
      · exact hlevas h
      · exact hlevbs h
    exact lookup_levelChunk_none results i j l2
      (taxonomy_keys_disjoint level hlev l2 hl2mem hne k hk)
  have hasnone : List.lookup k (as.flatMap (levelChunk results i j)) = none :=
    lookup_flatMap_none results i j as fun l hl => hother l (Or.inl hl)
  have hbsnone : List.lookup k (bs.flatMap (levelChunk results i j)) = none :=
    lookup_flatMap_none results i j bs fun l hl => hother l (Or.inr hl)
  rw [buildRecord]
  simp only [List.lookup_cons, beq_eq_false_iff_ne.mpr hk1, beq_eq_false_iff_ne.mpr hk2]
  rw [htax, List.flatMap_append, List.flatMap_cons]
  rw [lookup_append_of_none hasnone]
  cases hc : List.lookup k (levelChunk results i j level) with
  | some v => exact lookup_append_of_some hc
  | none => rw [lookup_append_of_none hc]; exact hbsnone

/-- Shorthand for the three key-distinctness facts of one level's chunk. -/
theorem chunk_key_ne (level : String) (hlev : level ∈ TAXONOMY_LEVELS) :
    pyCapitalize level ++ "_Hit" ≠ pyCapitalize level
    ∧ pyCapitalize level ++ "_Similarity" ≠ pyCapitalize level
    ∧ pyCapitalize level ++ "_Similarity" ≠ pyCapitalize level ++ "_Hit" := by
  have hnd := taxonomy_chunkKeys_nodup level hlev
  rw [chunkKeys] at hnd
  rcases List.nodup_cons.mp hnd with ⟨hn1, hnd2⟩
  rcases List.nodup_cons.mp hnd2 with ⟨hn2, -⟩
  refine ⟨?_, ?_, ?_⟩
  · intro h; rw [h] at hn1; exact hn1 (List.mem_cons_self _ _)
  · intro h; rw [h] at hn1; exact hn1 (by simp)
  · intro h; rw [h] at hn2; exact hn2 (by simp)

/-- C2: when `results[level][i][j]` is out of range, the assembled record for
rank `j` still exists, carries the sentinel label "No match found" for that
level, and leaves that level's hit and similarity cells unset; each sequence
gets exactly `top_n` records. -/
theorem assemble_no_match (results : SearchResults) (seq_ids : List String)
    (top_n i j : Nat) (level : String)
    (hlev : level ∈ TAXONOMY_LEVELS) (hi : i < seq_ids.length) (hj : j < top_n)
    (hoob : ((results level).get? i >>= fun row => row.get? j) = none) :
    List.lookup (pyCapitalize level)
        (buildRecord results TAXONOMY_LEVELS (seq_ids.getD i "") i j)
      = some (.str "No match found")
    ∧ List.lookup (pyCapitalize level ++ "_Hit")
        (buildRecord results TAXONOMY_LEVELS (seq_ids.getD i "") i j) = none
    ∧ List.lookup (pyCapitalize level ++ "_Similarity")
        (buildRecord results TAXONOMY_LEVELS (seq_ids.getD i "") i j) = none
    ∧ (assemble results TAXONOMY_LEVELS seq_ids top_n)[i]?
        = some (seq_ids.getD i "",
            (List.range top_n).map fun r =>
              buildRecord results TAXONOMY_LEVELS (seq_ids.getD i "") i r)
    ∧ ((List.range top_n).map fun r =>
          buildRecord results TAXONOMY_LEVELS (seq_ids.getD i "") i r)[j]?
        = some (buildRecord results TAXONOMY_LEVELS (seq_ids.getD i "") i j)
    ∧ ((List.range top_n).map fun r =>
          buildRecord results TAXONOMY_LEVELS (seq_ids.getD i "") i r).length = top_n := by
  obtain ⟨hne1, hne2, -⟩ := chunk_key_ne level hlev
  have hchunk : levelChunk results i j level
      = [(pyCapitalize level, .str "No match found")] := by
    rw [levelChunk]
    simp only [hoob]
  refine ⟨?_, ?_, ?_, ?_, ?_, ?_⟩
  · rw [lookup_buildRecord results _ i j hlev (by simp [chunkKeys]), hchunk]
    simp [List.lookup_cons]
  · rw [lookup_buildRecord results _ i j hlev (by simp [chunkKeys]), hchunk]
    simp [List.lookup_cons, beq_eq_false_iff_ne.mpr hne1]
  · rw [lookup_buildRecord results _ i j hlev (by simp [chunkKeys]), hchunk]
    simp [List.lookup_cons, beq_eq_false_iff_ne.mpr hne2]
  · rw [assemble]
    rw [List.getElem?_map, List.getElem?_range hi]
    rfl
  · rw [List.getElem?_map, List.getElem?_range hj]
    rfl
  · simp

/-- C5: when `results[level][i][j]` is present but the match's entity value for
the level is empty, the record stores empty placeholders for all three of
label, hit, and similarity at that level — not the "No match found" sentinel. -/
theorem assemble_empty_value (results : SearchResults) (sid : String)
    (i j : Nat) (level : String) (m : Match)
    (hlev : level ∈ TAXONOMY_LEVELS)
    (hslot : ((results level).get? i >>= fun row => row.get? j) = some m)
    (hempty : (List.lookup level m.entity).getD "" = "") :
    List.lookup (pyCapitalize level)
        (buildRecord results TAXONOMY_LEVELS sid i j) = some (.str "")
    ∧ List.lookup (pyCapitalize level ++ "_Hit")
        (buildRecord results TAXONOMY_LEVELS sid i j) = some (.str "")
    ∧ List.lookup (pyCapitalize level ++ "_Similarity")
        (buildRecord results TAXONOMY_LEVELS sid i j) = some (.str "") := by
  obtain ⟨hne1, hne2, hne3⟩ := chunk_key_ne level hlev
  have hchunk : levelChunk results i j level
      = [(pyCapitalize level, .str ""), (pyCapitalize level ++ "_Hit", .str ""),
          (pyCapitalize level ++ "_Similarity", .str "")] := by
    rw [levelChunk]
    simp only [hslot, hempty, ne_eq, not_true_eq_false, if_false]
  refine ⟨?_, ?_, ?_⟩
  · rw [lookup_buildRecord results _ i j hlev (by simp [chunkKeys]), hchunk]
    simp [List.lookup_cons]
  · rw [lookup_buildRecord results _ i j hlev (by simp [chunkKeys]), hchunk]
    simp [List.lookup_cons, beq_eq_false_iff_ne.mpr hne1]
  · rw [lookup_buildRecord results _ i j hlev (by simp [chunkKeys]), hchunk]
    simp [List.lookup_cons, beq_eq_false_iff_ne.mpr hne2, beq_eq_false_iff_ne.mpr hne3]

/-- The similarity score 9/10, in reduced form so that the kernel can
evaluate it. -/
def simScore : Rat := Rat.mk' 9 10

/-- A single match carrying a full entity record. -/
def fullMatch : Match :=
  ⟨"KY105194", simScore,
    [("phylum", "Ascomycota"), ("class", "Sordariomycetes"), ("order", "Hypocreales"),
      ("family", "Nectriaceae"), ("genus", "Fusarium"), ("species", "Fusarium oxysporum")]⟩

/-- An engine answer with exactly one match for the single input sequence at
every level. -/
def oneMatchResults : SearchResults := fun _ => [[fullMatch]]

/-- Witness for C2: one match but `top_n = 3` — rank 1 (0-indexed) gets the
sentinel on level "phylum", its hit/similarity stay unset, and the sequence
still gets 3 records. -/
theorem assemble_no_match_witness :
    List.lookup (pyCapitalize "phylum")
        (buildRecord oneMatchResults TAXONOMY_LEVELS "seq1" 0 1)
      = some (.str "No match found")
    ∧ List.lookup (pyCapitalize "phylum" ++ "_Hit")
        (buildRecord oneMatchResults TAXONOMY_LEVELS "seq1" 0 1) = none
    ∧ List.lookup (pyCapitalize "phylum" ++ "_Similarity")
        (buildRecord oneMatchResults TAXONOMY_LEVELS "seq1" 0 1) = none
    ∧ ((List.range 3).map fun r =>
          buildRecord oneMatchResults TAXONOMY_LEVELS "seq1" 0 r).length = 3 := by
  have h := assemble_no_match oneMatchResults ["seq1"] 3 0 1 "phylum"
    (by decide) (by decide) (by decide) (by rfl)
  exact ⟨h.1, h.2.1, h.2.2.1, h.2.2.2.2.2⟩

/-- A match whose entity mapping has no value for "phylum". -/
def noPhylumMatch : Match := ⟨"KY105195", 1 / 2, [("genus", "Fusarium")]⟩

/-- An engine answer whose single match is present but empty at "phylum". -/
def emptyValueResults : SearchResults := fun _ => [[noPhylumMatch]]

/-- Witness for C5: a present match with an empty "phylum" value yields empty
placeholders for label, hit, and similarity. -/
theorem assemble_empty_value_witness :
    List.lookup (pyCapitalize "phylum")
        (buildRecord emptyValueResults TAXONOMY_LEVELS "seq1" 0 0) = some (.str "")
    ∧ List.lookup (pyCapitalize "phylum" ++ "_Hit")
        (buildRecord emptyValueResults TAXONOMY_LEVELS "seq1" 0 0) = some (.str "")
    ∧ List.lookup (pyCapitalize "phylum" ++ "_Similarity")
        (buildRecord emptyValueResults TAXONOMY_LEVELS "seq1" 0 0) = some (.str "") := by
  exact assemble_empty_value emptyValueResults "seq1" 0 0 "phylum" noPhylumMatch
    (by decide) (by rfl) (by rfl)

/-! ## Count-mismatch diagnostic (src/app.py, lines 184-201) -/

/-- The union of the identifiers carried by every match over all levels and
sequences ("processed_ids" in the source). -/
def processedIds (results : SearchResults) (levels : List String) : List String :=
  levels.flatMap fun level => (results level).flatMap fun row => row.map Match.id

/-- The observable outcome of the post-search pipeline: an optional
count-mismatch warning naming (submitted, returned) counts, the best-effort
list of unprocessed identifiers, and the assembled table. -/
structure RunOutput where
  countWarning : Option (Nat × Nat)
  unprocessed : List String
  table : List (String × List ResultRecord)

/-- The pipeline step after the engine call (src/app.py lines 184-228): the
count check against the first taxonomy level, the unprocessed-identifier
diagnostic, and the assembly loop — the mismatch never aborts assembly. -/
def runResults (results : SearchResults) (seq_ids : List String) (top_n : Nat) :
    RunOutput :=
  let numResults := (results (TAXONOMY_LEVELS.headD "")).length
  if numResults ≠ seq_ids.length then
    { countWarning := some (seq_ids.length, numResults)
      unprocessed :=
        seq_ids.filter fun s => !(processedIds results TAXONOMY_LEVELS).contains s
      table := assemble results TAXONOMY_LEVELS seq_ids top_n }
  else
    { countWarning := none
      unprocessed := []
      table := assemble results TAXONOMY_LEVELS seq_ids top_n }

/-- C4: whenever the first level's result count differs from the submitted
count, the pipeline emits a warning naming both counts, computes exactly the
submitted identifiers absent from the union of all match-carried identifiers,
and still assembles the full result table. -/
theorem run_count_mismatch (results : SearchResults) (seq_ids : List String)
    (top_n : Nat)
    (hmis : (results (TAXONOMY_LEVELS.headD "")).length ≠ seq_ids.length) :
    (runResults results seq_ids top_n).countWarning
        = some (seq_ids.length, (results (TAXONOMY_LEVELS.headD "")).length)
    ∧ (∀ s, s ∈ (runResults results seq_ids top_n).unprocessed ↔
        s ∈ seq_ids ∧ s ∉ processedIds results TAXONOMY_LEVELS)
    ∧ (runResults results seq_ids top_n).table
        = assemble results TAXONOMY_LEVELS seq_ids top_n := by
  rw [runResults]
  simp only [if_pos hmis]
  refine ⟨trivial, ?_, trivial⟩
  intro s
  rw [List.mem_filter]
  constructor
  · rintro ⟨hmem, hflt⟩
    refine ⟨hmem, fun hcontra => ?_⟩
    rw [Bool.not_eq_true'] at hflt
    have helem := List.elem_iff.mpr hcontra
    simp only [List.contains] at hflt
    rw [hflt] at helem
    exact Bool.false_ne_true helem
  · rintro ⟨hmem, habs⟩
    refine ⟨hmem, ?_⟩
    rw [Bool.not_eq_true']
    simp only [List.contains]
    cases helem : (processedIds results TAXONOMY_LEVELS).elem s
    · rfl
    · exact absurd (List.elem_iff.mp helem) habs

/-- An engine answer covering only the identifier "a" with one match per level. -/
def partialResults : SearchResults := fun _ =>
  [[⟨"a", 9 / 10, [("phylum", "Ascomycota")]⟩]]

/-- Witness for C4: two submitted identifiers, one returned result slot — the
warning names both counts, and "b" is flagged as unprocessed while "a" is not. -/
theorem run_count_mismatch_witness :
    (runResults partialResults ["a", "b"] 1).countWarning = some (2, 1)
    ∧ ("b" ∈ (runResults partialResults ["a", "b"] 1).unprocessed ↔
        "b" ∈ ["a", "b"] ∧ "b" ∉ processedIds partialResults TAXONOMY_LEVELS)
    ∧ (runResults partialResults ["a", "b"] 1).table
        = assemble partialResults TAXONOMY_LEVELS ["a", "b"] 1 := by
  have h := run_count_mismatch partialResults ["a", "b"] 1 (by decide)
  exact ⟨h.1, h.2.1 "b", h.2.2⟩

/-! ## Temporary-file lifecycle (src/app.py, `process_fasta_and_run`, lines 156-172) -/

/-- The file system as a list of (path, content) pairs. -/
structure FileSystem where
  files : List (String × String)
  deriving DecidableEq, Repr

/-- Writing the temporary FASTA file (`NamedTemporaryFile` + `write`/`flush`). -/
def createTemp (fs : FileSystem) (path content : String) : FileSystem :=
  ⟨(path, content) :: fs.files⟩

/-- `os.unlink`: remove the file at `path`. -/
def unlink (fs : FileSystem) (path : String) : FileSystem :=
  ⟨fs.files.filter fun f => f.1 ≠ path⟩

/-- `process_fasta_and_run` (src/app.py lines 156-172): create and write the
temporary file, call the engine on its path, and — `try`/`finally` — unlink the
file whether the call succeeds or raises, propagating the outcome unchanged. -/
def process_fasta_and_run {α : Type} (engine : String → FileSystem → Except String α)
    (path content : String) (fs : FileSystem) : Except String α × FileSystem :=
  let fs1 := createTemp fs path content
  match engine path fs1 with
  | .ok v => (.ok v, unlink fs1 path)
  | .error e => (.error e, unlink fs1 path)

/-- C10: with a fresh temporary path, the engine is invoked on a file system in
which the temporary file exists with the submitted content; the engine's
outcome — success or failure — propagates unmodified; and afterwards the file
system is restored exactly, on both paths (the temporary file is deleted). -/
theorem process_temp_lifecycle {α : Type}
    (engine : String → FileSystem → Except String α)
    (path content : String) (fs : FileSystem)
    (hfresh : path ∉ fs.files.map Prod.fst) :
    (path, content) ∈ (createTemp fs path content).files
    ∧ (process_fasta_and_run engine path content fs).1
        = engine path (createTemp fs path content)
    ∧ (process_fasta_and_run engine path content fs).2 = fs := by
  refine ⟨List.mem_cons_self _ _, ?_, ?_⟩
  · rw [process_fasta_and_run]
    cases engine path (createTemp fs path content) with
    | ok v => rfl
    | error e => rfl
  · have hclean : unlink (createTemp fs path content) path = fs := by
      rw [unlink, createTemp]
      simp only [List.filter_cons]
      rw [if_neg (by simp)]
      have : fs.files.filter (fun f => f.1 ≠ path) = fs.files := by
        apply List.filter_eq_self.mpr
        intro f hf
        simp only [decide_eq_true_eq]
        intro hcontra
        exact hfresh (hcontra ▸ List.mem_map_of_mem Prod.fst hf)
      rw [this]
    rw [process_fasta_and_run]
    cases engine path (createTemp fs path content) with
    | ok v => simpa using hclean
    | error e => simpa using hclean

/-- Witness for C10: a failing engine call still leaves the file system exactly
as before, and the failure reaches the caller unmodified. -/
theorem process_temp_lifecycle_witness :
    ("run.fasta", ">a\nATGC") ∈
        (createTemp ⟨[("data.txt", "x")]⟩ "run.fasta" ">a\nATGC").files
    ∧ (process_fasta_and_run (fun _ _ => .error "engine failure")
        "run.fasta" ">a\nATGC" ⟨[("data.txt", "x")]⟩).1
        = (fun (_ : String) (_ : FileSystem) => (.error "engine failure" : Except String Unit))
            "run.fasta" (createTemp ⟨[("data.txt", "x")]⟩ "run.fasta" ">a\nATGC")
    ∧ (process_fasta_and_run (fun _ _ => (.error "engine failure" : Except String Unit))
        "run.fasta" ">a\nATGC" ⟨[("data.txt", "x")]⟩).2 = ⟨[("data.txt", "x")]⟩ := by
  exact process_temp_lifecycle (fun _ _ => .error "engine failure")
    "run.fasta" ">a\nATGC" ⟨[("data.txt", "x")]⟩ (by decide)

/-! ## Display merging and CSV export (src/app.py, lines 246-274) -/

/-- `round(x, 3)`: the similarity score rounded to three decimals (used only
by the display path). -/
def round3 (q : Rat) : Rat := ((round (q * 1000) : ℤ) : Rat) / 1000

/-- A fixed, injective rendering of a similarity score. -/
def ratRender (q : Rat) : String := toString q.num ++ "/" ++ toString q.den

/-- String rendering of one cell for CSV output. -/
def renderCell : CellValue → String
  | .str s => s
  | .nat n => toString n
  | .num q => ratRender q

/-- The display transform for one level of one record (src/app.py lines
249-259): combine the label with the hit id and the rounded similarity into a
single display string; the helper columns are dropped from the displayed table
only. (Only the fully-populated case is modelled; display of missing cells is
a presentation-layer concern.) -/
def displayMergeCell (r : ResultRecord) (level : String) : String :=
  let cap := pyCapitalize level
  match List.lookup cap r, List.lookup (cap ++ "_Hit") r,
      List.lookup (cap ++ "_Similarity") r with
  | some (.str lbl), some (.str hid), some (.num q) =>
    lbl ++ " (" ++ hid ++ ";" ++ ratRender (round3 q) ++ ")"
  | _, _, _ => ""

/-- `combined_results` (src/app.py lines 263-265): the records of all
sequences, flattened in sequence order — built from the stored records, not
from the displayed table. -/
def combinedResults (tbl : List (String × List ResultRecord)) : List ResultRecord :=
  tbl.flatMap Prod.snd

/-- The CSV column set: every key of every record, first occurrences kept. -/
def columnsOf (rows : List ResultRecord) : List String :=
  (rows.flatMap fun r => r.map Prod.fst).dedup

/-- One CSV data row: each column's cell rendered, absent keys as empty. -/
def csvRow (cols : List String) (r : ResultRecord) : List String :=
  cols.map fun c =>
    match List.lookup c r with
    | some v => renderCell v
    | none => ""

/-- The CSV content as a grid of cell strings: header row then data rows. -/
def csvGrid (rows : List ResultRecord) : List (List String) :=
  columnsOf rows :: rows.map (csvRow (columnsOf rows))

/-- The serialized CSV text (`combined_df.to_csv(index=False)`). -/
def csvString (rows : List ResultRecord) : String :=
  String.mk (joinSep (Char.ofNat 10)
    ((csvGrid rows).map fun row => joinSep ',' (row.map String.data)))

/-- Re-parsing CSV text: split into lines, then each line into cells. -/
def parseCsv (s : String) : List (List String) :=
  (splitSep (Char.ofNat 10) s.data).map fun lc => (splitSep ',' lc).map String.mk

/-! ## Split/join round-trip lemmas -/

theorem splitSep_ne_nil (sep : Char) (l : List Char) : splitSep sep l ≠ [] := by
  cases l with
  | nil => simp [splitSep]
  | cons c cs =>
    rw [splitSep]
    by_cases hc : c = sep
    · simp [hc]
    · rw [if_neg hc]
      cases splitSep sep cs <;> simp

theorem splitSep_no_sep (sep : Char) (l : List Char) (h : sep ∉ l) :
    splitSep sep l = [l] := by
  induction l with
  | nil => rfl
  | cons c cs ih =>
    have hc : c ≠ sep := fun hc => h (hc ▸ List.mem_cons_self c cs)
    have hcs : sep ∉ cs := fun hmem => h (List.mem_cons_of_mem c hmem)
    rw [splitSep, if_neg hc, ih hcs]

theorem splitSep_append (sep : Char) (x rest : List Char) (hx : sep ∉ x) :
    splitSep sep (x ++ sep :: rest) = x :: splitSep sep rest := by
  induction x with
  | nil => simp [splitSep]
  | cons c cs ih =>
    have hc : c ≠ sep := fun hc => hx (hc ▸ List.mem_cons_self c cs)
    have hcs : sep ∉ cs := fun hmem => hx (List.mem_cons_of_mem c hmem)
    rw [List.cons_append, splitSep, if_neg hc, ih hcs]

theorem splitSep_joinSep (sep : Char) (xss : List (List Char)) (hne : xss ≠ [])
    (hall : ∀ x ∈ xss, sep ∉ x) :
    splitSep sep (joinSep sep xss) = xss := by
  induction xss with
  | nil => exact absurd rfl hne
  | cons x rest ih =>
    cases rest with
    | nil =>
      rw [joinSep]
      exact splitSep_no_sep sep x (hall x (List.mem_cons_self x []))
    | cons y ys =>
      rw [joinSep, splitSep_append sep x _ (hall x (List.mem_cons_self x (y :: ys)))]
      rw [ih (by simp) fun z hz => hall z (List.mem_cons_of_mem x hz)]

theorem mem_joinSep (sep : Char) (xss : List (List Char)) (c : Char)
    (h : c ∈ joinSep sep xss) : c = sep ∨ ∃ x ∈ xss, c ∈ x := by
  induction xss with
  | nil => simp [joinSep] at h
  | cons x rest ih =>
    cases rest with
    | nil =>
      rw [joinSep] at h
      exact Or.inr ⟨x, List.mem_cons_self x [], h⟩
    | cons y ys =>
      rw [joinSep] at h
      rcases List.mem_append.mp h with hx | hrest
      · exact Or.inr ⟨x, List.mem_cons_self x (y :: ys), hx⟩
      · rcases List.mem_cons.mp hrest with hc | hr
        · exact Or.inl hc
        · rcases ih hr with hc | ⟨z, hz, hcz⟩
          · exact Or.inl hc
          · exact Or.inr ⟨z, List.mem_cons_of_mem x hz, hcz⟩

/-- A successful lookup means the key is among the record's keys. -/
theorem lookup_mem_keys {k : String} {v : CellValue} {r : ResultRecord}
    (h : List.lookup k r = some v) : k ∈ r.map Prod.fst := by
  induction r with
  | nil => simp [List.lookup] at h
  | cons a t ih =>
    obtain ⟨ka, va⟩ := a
    cases hk : (k == ka) with
    | true =>
      have : k = ka := by simpa using hk
      simp [this]
    | false =>
      rw [List.lookup_cons, hk] at h
      exact List.mem_cons_of_mem _ (ih h)

/-- C9: the exported CSV is built from the stored records with full-precision
similarity values — re-parsing the written CSV text reproduces the whole grid
(header, Sequence_ID, Rank and every per-level field) exactly; a similarity
cell holds the unrounded score, while the separate display transform shows the
rounded score in its merged string. -/
theorem export_roundtrip (rows : List ResultRecord)
    (hcols : columnsOf rows ≠ [])
    (hclean : ∀ row ∈ csvGrid rows, ∀ cell ∈ row,
      (',' : Char) ∉ cell.data ∧ Char.ofNat 10 ∉ cell.data) :
    parseCsv (csvString rows) = csvGrid rows
    ∧ (∀ r ∈ rows, ∀ k : String, ∀ q : Rat,
        List.lookup k r = some (.num q) →
        (csvRow (columnsOf rows) r)[(columnsOf rows).indexOf k]?
          = some (ratRender q))
    ∧ (∀ r : ResultRecord, ∀ level lbl hid : String, ∀ q : Rat,
        List.lookup (pyCapitalize level) r = some (.str lbl) →
        List.lookup (pyCapitalize level ++ "_Hit") r = some (.str hid) →
        List.lookup (pyCapitalize level ++ "_Similarity") r = some (.num q) →
        displayMergeCell r level
          = lbl ++ " (" ++ hid ++ ";" ++ ratRender (round3 q) ++ ")") := by
  have hrowne : ∀ row ∈ csvGrid rows, row ≠ [] := by
    intro row hrow
    rcases List.mem_cons.mp hrow with h | h
    · rw [h]; exact hcols
    · obtain ⟨r, -, rfl⟩ := List.mem_map.mp h
      intro hnil
      exact hcols (List.map_eq_nil_iff.mp hnil)
  refine ⟨?_, ?_, ?_⟩
  · have hlines_nosep : ∀ line ∈ (csvGrid rows).map
        (fun row => joinSep ',' (row.map String.data)), Char.ofNat 10 ∉ line := by
      intro line hline
      obtain ⟨row, hrow, rfl⟩ := List.mem_map.mp hline
      intro hmem
      rcases mem_joinSep ',' (row.map String.data) _ hmem with hc | ⟨x, hx, hcx⟩
      · exact absurd hc (by decide)
      · obtain ⟨cell, hcell, rfl⟩ := List.mem_map.mp hx
        exact (hclean row hrow cell hcell).2 hcx
    rw [parseCsv, csvString]
    show ((splitSep (Char.ofNat 10) (joinSep (Char.ofNat 10)
      ((csvGrid rows).map fun row => joinSep ',' (row.map String.data)))).map
        fun lc => (splitSep ',' lc).map String.mk) = csvGrid rows
    rw [splitSep_joinSep _ _ (by rw [csvGrid]; simp) hlines_nosep]
    rw [List.map_map]
    have hpoint : ∀ row ∈ csvGrid rows,
        ((fun lc => (splitSep ',' lc).map String.mk) ∘
          fun row => joinSep ',' (row.map String.data)) row = id row := by
      intro row hrow
      show ((splitSep ',' (joinSep ',' (row.map String.data))).map String.mk) = row
      rw [splitSep_joinSep ',' (row.map String.data)
        (fun hnil => hrowne row hrow (List.map_eq_nil_iff.mp hnil))
        (by
          intro x hx hmem
          obtain ⟨cell, hcell, rfl⟩ := List.mem_map.mp hx
          exact (hclean row hrow cell hcell).1 hmem)]
      rw [List.map_map]
      have hid : String.mk ∘ String.data = id := funext fun s => rfl
      rw [hid, List.map_id]
    rw [List.map_eq_map_iff.mpr hpoint, List.map_id]
  · intro r hr k q hlk
    have hkmem : k ∈ columnsOf rows := by
      rw [columnsOf, List.mem_dedup]
      exact List.mem_flatMap.mpr ⟨r, hr, lookup_mem_keys hlk⟩
    have hidx : (columnsOf rows).indexOf k < (columnsOf rows).length :=
      List.indexOf_lt_length.mpr hkmem
    rw [csvRow, List.getElem?_map, List.getElem?_eq_getElem hidx]
    rw [List.getElem_indexOf hidx]
    simp only [Option.map_some', hlk]
    rfl
  · intro r level lbl hid q h1 h2 h3
    rw [displayMergeCell]
    simp only [h1, h2, h3]

/-- The combined flat table for one fully-matched sequence with `top_n = 1`. -/
def exportRows : List ResultRecord :=
  combinedResults (assemble oneMatchResults TAXONOMY_LEVELS ["seq1"] 1)

/-- Witness for C9: the assembled single-sequence table round-trips through
CSV text, and the exported Phylum_Similarity cell carries the full-precision
score 9/10. -/
theorem export_roundtrip_witness :
    parseCsv (csvString exportRows) = csvGrid exportRows
    ∧ (csvRow (columnsOf exportRows)
        (buildRecord oneMatchResults TAXONOMY_LEVELS "seq1" 0 0))[
          (columnsOf exportRows).indexOf "Phylum_Similarity"]?
        = some (ratRender simScore) := by
  have h := export_roundtrip exportRows (by decide) (by decide)
  exact ⟨h.1, h.2.1 (buildRecord oneMatchResults TAXONOMY_LEVELS "seq1" 0 0)
    (by decide) "Phylum_Similarity" simScore (by rfl)⟩

end TaxoApp
